import Mathlib

/-!
Verification of the OpenManus agent core: a shallow embedding of the
planning tool (`app/tool/planning.py`), the tool registry
(`app/tool/tool_collection.py`), the tool-calling think phase
(`app/agent/toolcall.py`), the base agent run loop (`app/agent/base.py`)
and the planning agent's plan-text parsing (`app/agent/planning.py`),
together with theorems settling the specification's claims about them.
-/

namespace OpenManus

/-- Python truthiness of an optional string: `None` and the empty string
are falsy, every other string is truthy. -/
def optStrTruthy : Option String → Bool
  | none => false
  | some s => !s.isEmpty

/-- Generic association-list lookup, modelling Python `dict` access
(`d.get(k)` / `k in d`). -/
def assocGet {β : Type} : List (String × β) → String → Option β
  | [], _ => none
  | (k, v) :: rest, key => if k = key then some v else assocGet rest key

/-- Generic association-list store, modelling Python `d[k] = v`: an existing
key is overwritten in place, a new key is appended (insertion order). -/
def assocSet {β : Type} : List (String × β) → String → β → List (String × β)
  | [], key, v => [(key, v)]
  | (k, w) :: rest, key, v =>
    if k = key then (key, v) :: rest else (k, w) :: assocSet rest key v

/-- A stored plan, from `PlanningTool`: the dict with keys `plan_id`,
`title`, `steps`, `step_statuses`, `step_notes` built by `_create_plan`.
Statuses and notes are plain strings, exactly as the source stores them. -/
structure Plan where
  planId : String
  title : String
  steps : List String
  stepStatuses : List String
  stepNotes : List String
  deriving DecidableEq, Repr

/-- The planning tool's mutable state: the `plans` dict and
`_current_plan_id`. -/
structure PlanningState where
  plans : List (String × Plan)
  currentPlanId : Option String
  deriving DecidableEq, Repr

/-- Status marker used by `_format_plan`: the dict
`{"not_started": "□", "in_progress": "▶", "completed": "✓", "blocked": "‼"}`
read with `.get(status, "□")`. -/
def statusSym (status : String) : String :=
  if status = "not_started" then "□"
  else if status = "in_progress" then "▶"
  else if status = "completed" then "✓"
  else if status = "blocked" then "‼"
  else "□"

/-- Round `n / d` to the nearest integer, ties to even. Used to model
CPython's float formatting in `_format_plan`; `d = 0` yields `0`
(in Python that line raises `ZeroDivisionError`, but `_create_plan` and
`_update_plan` never store an empty step list, so `d ≥ 1` in every
reachable state). -/
def roundHalfEven (n d : Nat) : Nat :=
  if d = 0 then 0
  else
    let q := n / d
    let r := n % d
    if 2 * r < d then q
    else if d < 2 * r then q + 1
    else if q % 2 = 0 then q else q + 1

/-- The `(completed/total*100):.1f` field of `_format_plan`'s progress
line, modelled by exact rational rounding to one decimal place (this
agrees with the binary-float formatting on all inputs exercised here). -/
def formatPct (completed total : Nat) : String :=
  let t := roundHalfEven (completed * 1000) total
  toString (t / 10) ++ "." ++ toString (t % 10)

/-- The per-step lines of `_format_plan`: Python iterates
`enumerate(zip(steps, statuses, notes))` (zip truncates to the shortest
list), printing `f"{i}. {status_sym} {step}"` and, when the note is
non-empty, an indented note line. -/
def stepLines : Nat → List String → List String → List String → String
  | i, step :: ss, status :: sts, note :: ns =>
    toString i ++ ". " ++ statusSym status ++ " " ++ step ++ "\n" ++
      (if note.isEmpty then "" else "   备注：" ++ note ++ "\n") ++
      stepLines (i + 1) ss sts ns
  | _, _, _, _ => ""

/-- `PlanningTool._format_plan`: header line, a rule of `=` as long as the
header (Python `len` counts the trailing newline character too), progress
and status-count lines, the literal line `步骤详情：`, then the per-step
lines. -/
def formatPlan (p : Plan) : String :=
  let line1 := "计划：" ++ p.title ++ " (ID：" ++ p.planId ++ ")\n"
  let total := p.steps.length
  let completed := (p.stepStatuses.filter (fun s => s = "completed")).length
  let inProg := (p.stepStatuses.filter (fun s => s = "in_progress")).length
  let blocked := (p.stepStatuses.filter (fun s => s = "blocked")).length
  let notStarted := (p.stepStatuses.filter (fun s => s = "not_started")).length
  line1 ++ "".pushn '=' line1.length ++ "\n\n" ++
    "进度：" ++ toString completed ++ "/" ++ toString total ++
    " (" ++ formatPct completed total ++ "%)\n" ++
    "状态：完成" ++ toString completed ++ "个，进行中" ++ toString inProg ++
    "个，阻塞" ++ toString blocked ++ "个，未开始" ++ toString notStarted ++ "个\n\n" ++
    "步骤详情：\n" ++ stepLines 0 p.steps p.stepStatuses p.stepNotes

/-- A tool execution result (`app/tool/base.py` `ToolResult`): optional
output, optional error, optional system note. -/
structure ToolResult where
  output : Option String := none
  error : Option String := none
  system : Option String := none
  deriving DecidableEq, Repr

/-- A `ToolFailure`: a `ToolResult` with only the error field set. -/
def ToolFailure (e : String) : ToolResult := { error := some e }

/-- `PlanningTool._create_plan`. A `raise ToolError` is rendered as an
`Except.error` paired with the state as mutated so far (here: unchanged,
since every check precedes the mutation). The `isinstance` checks of the
source are vacuous in this typed embedding. -/
def createPlan (st : PlanningState) (planId title : Option String)
    (steps : Option (List String)) : PlanningState × Except String ToolResult :=
  if !optStrTruthy planId then (st, Except.error "创建计划时必须指定plan_id")
  else
    let pid := planId.getD ""
    if (assocGet st.plans pid).isSome then
      (st, Except.error ("ID为" ++ pid ++ "的计划已存在"))
    else if !optStrTruthy title then
      (st, Except.error "必须提供计划标题")
    else
      match steps with
      | none => (st, Except.error "步骤必须为非空字符串列表")
      | some ss =>
        if ss.isEmpty then (st, Except.error "步骤必须为非空字符串列表")
        else
          let p : Plan :=
            { planId := pid, title := title.getD "", steps := ss,
              stepStatuses := List.replicate ss.length "not_started",
              stepNotes := List.replicate ss.length "" }
          ({ plans := assocSet st.plans pid p, currentPlanId := some pid },
           Except.ok { output := some ("计划创建成功：" ++ pid ++ "\n\n" ++ formatPlan p) })

/-- The status/note carry-over loop of `_update_plan`: for each new step at
index `i`, keep the old status and note when `i < len(old_steps)` and the
step text is unchanged, else start fresh. `getD` stands in for Python
indexing; its default is only reachable when the parallel-arrays invariant
is already broken (where Python would raise `IndexError`). -/
def carryOver (oldSteps oldStatuses oldNotes : List String) :
    Nat → List String → List String × List String
  | _, [] => ([], [])
  | i, n :: rest =>
    let tail := carryOver oldSteps oldStatuses oldNotes (i + 1) rest
    if i < oldSteps.length ∧ oldSteps.getD i "" = n then
      (oldStatuses.getD i "not_started" :: tail.1, oldNotes.getD i "" :: tail.2)
    else ("not_started" :: tail.1, "" :: tail.2)

/-- `PlanningTool._update_plan`: update title if truthy; if a truthy step
list is supplied, rebuild steps with carried-over statuses and notes. -/
def updatePlan (st : PlanningState) (planId title : Option String)
    (steps : Option (List String)) : PlanningState × Except String ToolResult :=
  if !optStrTruthy planId then (st, Except.error "更新计划时必须指定plan_id")
  else
    let pid := planId.getD ""
    match assocGet st.plans pid with
    | none => (st, Except.error ("未找到ID为" ++ pid ++ "的计划"))
    | some p =>
      let p1 := if optStrTruthy title then { p with title := title.getD "" } else p
      let p2 :=
        match steps with
        | none => p1
        | some ss =>
          if ss.isEmpty then p1
          else
            let tail := carryOver p1.steps p1.stepStatuses p1.stepNotes 0 ss
            { p1 with steps := ss, stepStatuses := tail.1, stepNotes := tail.2 }
      ({ st with plans := assocSet st.plans pid p2 },
       Except.ok { output := some ("计划更新成功：" ++ pid ++ "\n\n" ++ formatPlan p2) })

/-- `PlanningTool._get_plan`: resolve the plan id (argument or current),
fetch and render. -/
def getPlanCmd (st : PlanningState) (planId : Option String) :
    PlanningState × Except String ToolResult :=
  if !optStrTruthy planId && !optStrTruthy st.currentPlanId then
    (st, Except.error "未指定计划ID且没有当前激活计划")
  else
    let pid := if optStrTruthy planId then planId.getD "" else st.currentPlanId.getD ""
    match assocGet st.plans pid with
    | none => (st, Except.error ("未找到ID为" ++ pid ++ "的计划"))
    | some p => (st, Except.ok { output := some (formatPlan p) })

/-- `PlanningTool._mark_step`: resolve the plan id, validate index and
status, then set the status and/or note at the index. Every check precedes
every mutation, exactly as in the source. -/
def markStep (st : PlanningState) (planId : Option String) (stepIndex : Option Int)
    (stepStatus stepNotes : Option String) : PlanningState × Except String ToolResult :=
  let pidOpt := if optStrTruthy planId then planId else st.currentPlanId
  if !optStrTruthy pidOpt then (st, Except.error "未指定计划ID且没有当前激活计划")
  else
    let pid := pidOpt.getD ""
    match assocGet st.plans pid with
    | none => (st, Except.error ("未找到ID为" ++ pid ++ "的计划"))
    | some p =>
      match stepIndex with
      | none => (st, Except.error "必须指定步骤索引")
      | some i =>
        if i < 0 ∨ (p.steps.length : Int) ≤ i then
          (st, Except.error ("步骤索引" ++ toString i ++ "超出范围"))
        else if optStrTruthy stepStatus ∧
            ¬ stepStatus.getD "" ∈ ["not_started", "in_progress", "completed", "blocked"] then
          (st, Except.error "无效的状态值")
        else
          let p1 := if optStrTruthy stepStatus then
              { p with stepStatuses := p.stepStatuses.set i.toNat (stepStatus.getD "") }
            else p
          let p2 := if optStrTruthy stepNotes then
              { p1 with stepNotes := p1.stepNotes.set i.toNat (stepNotes.getD "") }
            else p1
          ({ st with plans := assocSet st.plans pid p2 },
           Except.ok { output := some ("步骤" ++ toString i ++ "已更新\n\n" ++ formatPlan p2) })

/-- Whether the list `p` is a leading segment of `l` (character lists). -/
def listLeads : List Char → List Char → Bool
  | [], _ => true
  | _ :: _, [] => false
  | a :: as, b :: bs => a = b && listLeads as bs

/-- Whether the character list `p` occurs contiguously inside `l`. -/
def listHasSub (p : List Char) : List Char → Bool
  | [] => listLeads p []
  | c :: cs => listLeads p (c :: cs) || listHasSub p cs

/-- Python's `pat in s` substring test. -/
def strContains (s pat : String) : Bool := listHasSub pat.toList s.toList

/-- Split a character list at newline characters (helper for
`splitLines`). -/
def linesAux (acc : List Char) : List Char → List (List Char)
  | [] => [acc.reverse]
  | c :: cs => if c = '\n' then acc.reverse :: linesAux [] cs else linesAux (c :: acc) cs

/-- Python `str.splitlines` for newline-separated text: like splitting on
a newline character but without a trailing empty piece. -/
def splitLines (s : String) : List String :=
  let ls := (linesAux [] s.toList).map String.mk
  if ls.getLast? = some "" then ls.dropLast else ls

/-- Python `str.strip()`: drop whitespace from both ends. -/
def pyStrip (s : String) : String :=
  String.mk (((s.toList.dropWhile Char.isWhitespace).reverse.dropWhile
    Char.isWhitespace).reverse)

/-- Index of the first line whose stripped text is the literal `Steps:`,
from `PlanningAgent._get_current_step_index`. -/
def findStepsMarker : List String → Option Nat
  | [] => none
  | l :: ls =>
    if pyStrip l = "Steps:" then some 0 else (findStepsMarker ls).map (· + 1)

/-- Offset of the first line containing the marker `[ ]` or `[→]`, from
`PlanningAgent._get_current_step_index` (the `enumerate(..., start=0)`
scan below the `Steps:` line). -/
def firstActiveOffset : Nat → List String → Option Nat
  | _, [] => none
  | i, l :: ls =>
    if strContains l "[ ]" || strContains l "[→]" then some i
    else firstActiveOffset (i + 1) ls

/-- The pure parsing core of `PlanningAgent._get_current_step_index`:
split the rendered plan into lines, locate the `Steps:` line, then return
the offset of the first subsequent line carrying a not-started or
in-progress marker. (In the source, finding the step also fires a
`mark_step in_progress` side effect; the returned index is this parse.) -/
def parseCurrentStepIndex (planText : String) : Option Nat :=
  let ls := splitLines planText
  match findStepsMarker ls with
  | none => none
  | some k => firstActiveOffset 0 (ls.drop (k + 1))

/-- The outcome of running one tool's own `execute`: a normal result, a
raised `ToolError`, or any other raised exception. -/
inductive ExecOutcome where
  | ok (r : ToolResult)
  | toolError (msg : String)
  | otherFault (msg : String)
  deriving DecidableEq, Repr

/-- A registered tool capability (`app/tool/base.py` `BaseTool`): static
name / description / JSON-schema metadata (the schema kept opaque), plus
its execution behaviour over an abstract argument payload `α`. -/
structure Tool (α : Type) where
  name : String
  description : String
  parameters : Option String
  run : α → ExecOutcome

/-- The data of `BaseTool.to_param`: the advertised
`{"type": "function", "function": {name, description, parameters}}`
record. -/
structure ToolParam where
  pType : String
  name : String
  description : String
  parameters : Option String
  deriving DecidableEq, Repr

/-- `BaseTool.to_param`. -/
def Tool.toParam (t : Tool α) : ToolParam :=
  { pType := "function", name := t.name, description := t.description,
    parameters := t.parameters }

/-- `ToolCollection`: the `tools` tuple and the `tool_map` dict. -/
structure ToolCollection (α : Type) where
  tools : List (Tool α)
  toolMap : List (String × Tool α)

/-- `ToolCollection.__init__`: store the tuple and build the name-keyed
dict (`{tool.name: tool for tool in tools}`; later duplicates overwrite). -/
def initCollection (ts : List (Tool α)) : ToolCollection α :=
  { tools := ts, toolMap := ts.foldl (fun m t => assocSet m t.name t) [] }

/-- `ToolCollection.to_params`. -/
def ToolCollection.toParams (c : ToolCollection α) : List ToolParam :=
  c.tools.map Tool.toParam

/-- `ToolCollection.execute`: an unknown name yields a `ToolFailure`; a
`ToolError` raised by the tool is caught and converted to a `ToolFailure`;
any other exception is uncaught (`Except.error` models the propagating
fault, since the source's handler is `except ToolError` only). -/
def ToolCollection.execute (c : ToolCollection α) (name : String) (input : α) :
    Except String ToolResult :=
  match assocGet c.toolMap name with
  | none => Except.ok (ToolFailure ("工具不存在：" ++ name))
  | some t =>
    match t.run input with
    | ExecOutcome.ok r => Except.ok r
    | ExecOutcome.toolError m => Except.ok (ToolFailure m)
    | ExecOutcome.otherFault m => Except.error m

/-- `ToolCollection.add_tool`: append to the `tools` tuple and store into
the `tool_map` dict. -/
def ToolCollection.addTool (c : ToolCollection α) (t : Tool α) : ToolCollection α :=
  { tools := c.tools ++ [t], toolMap := assocSet c.toolMap t.name t }

/-- `ToolCollection.add_tools`: `add_tool` for each, left to right. -/
def ToolCollection.addTools (c : ToolCollection α) (ts : List (Tool α)) : ToolCollection α :=
  ts.foldl ToolCollection.addTool c

/-- Modelled from the spec: `app/schema.py` is not under src/. A tool
call's function payload: name and raw structured-text arguments. -/
structure FunctionCall where
  name : String
  arguments : Option String
  deriving DecidableEq, Repr

/-- Modelled from the spec: `app/schema.py` is not under src/. A
`ToolCall`: id unique within the emitting response plus the function
payload. -/
structure ToolCall where
  id : String
  function : FunctionCall
  deriving DecidableEq, Repr

/-- Modelled from the spec: `app/schema.py` is not under src/. Message
roles per spec §3. -/
inductive Role where
  | user
  | system
  | assistant
  | tool
  deriving DecidableEq, Repr

/-- Modelled from the spec: `app/schema.py` is not under src/. A message:
role, nullable content, optional tool calls (assistant only), optional
tool-call id and tool name (tool role only). -/
structure Message where
  role : Role
  content : Option String
  toolCalls : List ToolCall
  toolCallId : Option String
  name : Option String
  deriving DecidableEq, Repr

/-- Modelled from the spec: `Message.user_message`. -/
def Message.userMessage (c : String) : Message :=
  { role := Role.user, content := some c, toolCalls := [], toolCallId := none, name := none }

/-- Modelled from the spec: `Message.system_message`. -/
def Message.systemMessage (c : String) : Message :=
  { role := Role.system, content := some c, toolCalls := [], toolCallId := none, name := none }

/-- Modelled from the spec: `Message.assistant_message` (content may be
null). -/
def Message.assistantMessage (c : Option String) : Message :=
  { role := Role.assistant, content := c, toolCalls := [], toolCallId := none, name := none }

/-- Modelled from the spec: `Message.tool_message`. -/
def Message.toolMessage (c : String) (callId toolName : String) : Message :=
  { role := Role.tool, content := some c, toolCalls := [],
    toolCallId := some callId, name := some toolName }

/-- Modelled from the spec: `Message.from_tool_calls` builds an assistant
message carrying both text and tool calls. -/
def Message.fromToolCalls (c : Option String) (tcs : List ToolCall) : Message :=
  { role := Role.assistant, content := c, toolCalls := tcs, toolCallId := none, name := none }

/-- Modelled from the spec: tool-choice mode ∈ {AUTO, REQUIRED, NONE}. -/
inductive ToolChoice where
  | auto
  | required
  | choiceNone
  deriving DecidableEq, Repr

/-- Modelled from the spec: the model client's structured response,
`{content: optional text, tool_calls: ordered list}` (a null tool-call
list is rendered as the empty list). -/
structure LLMResponse where
  content : Option String
  toolCalls : List ToolCall
  deriving DecidableEq, Repr

/-- The fields of `ToolCallAgent` that its `think` reads and writes:
memory, the standing next-step directive, the tool-choice mode and the
scheduled tool calls. -/
structure TCAgent where
  memory : List Message
  nextStepPrompt : Option String
  toolChoices : ToolChoice
  toolCalls : List ToolCall
  deriving DecidableEq, Repr

/-- `ToolCallAgent.think`. `ask` is the outcome of the
`await self.llm.ask_tool(...)` call, which sits OUTSIDE the source's
`try` block, as do the `self.tool_calls` assignment and the log lines;
only the tool-choice dispatch from `if self.tool_choices == ...` onward is
inside the `try`. `mkAssistantMsg` is the (spec-modelled, possibly
faulting — `app/schema.py` is not under src/) `Message.from_tool_calls`
formatting used inside the `try`; a fault there is caught, an
assistant-role error message recorded, and `False` returned. -/
def think (ag : TCAgent) (ask : Except String LLMResponse)
    (mkAssistantMsg : Option String → List ToolCall → Except String Message) :
    TCAgent × Except String Bool :=
  let ag1 :=
    if optStrTruthy ag.nextStepPrompt then
      { ag with memory := ag.memory ++ [Message.userMessage (ag.nextStepPrompt.getD "")] }
    else ag
  match ask with
  | Except.error e => (ag1, Except.error e)
  | Except.ok response =>
    let ag2 := { ag1 with toolCalls := response.toolCalls }
    if ag2.toolChoices = ToolChoice.choiceNone then
      if optStrTruthy response.content then
        ({ ag2 with memory := ag2.memory ++ [Message.assistantMessage response.content] },
         Except.ok true)
      else (ag2, Except.ok false)
    else
      match (if response.toolCalls.isEmpty then
               Except.ok (Message.assistantMessage response.content)
             else mkAssistantMsg response.content response.toolCalls) with
      | Except.error e =>
        ({ ag2 with memory := ag2.memory ++
            [Message.assistantMessage (some ("Error encountered while processing: " ++ e))] },
         Except.ok false)
      | Except.ok assistantMsg =>
        let ag3 := { ag2 with memory := ag2.memory ++ [assistantMsg] }
        if ag3.toolChoices = ToolChoice.required ∧ response.toolCalls.isEmpty then
          (ag3, Except.ok true)
        else if ag3.toolChoices = ToolChoice.auto ∧ response.toolCalls.isEmpty then
          (ag3, Except.ok (optStrTruthy response.content))
        else (ag3, Except.ok (!response.toolCalls.isEmpty))

/-- The always-succeeding `Message.from_tool_calls` formatter. -/
def mkAssistantMsgOk (c : Option String) (tcs : List ToolCall) : Except String Message :=
  Except.ok (Message.fromToolCalls c tcs)

/-- `BaseAgent.is_stuck`: false below two messages or when the last
message's content is falsy; otherwise counts the messages before the last
whose role is assistant and whose content equals the last content, and
compares against the duplicate threshold. -/
def isStuck (msgs : List Message) (threshold : Nat) : Bool :=
  if msgs.length < 2 then false
  else
    match msgs.getLast? with
    | none => false
    | some last =>
      if !optStrTruthy last.content then false
      else
        let dup := msgs.dropLast.countP
          (fun m => m.role == Role.assistant && m.content == last.content)
        decide (threshold ≤ dup)

/-- Modelled from the spec: `app/schema.py` is not under src/. The agent
state enum {IDLE, RUNNING, FINISHED, ERROR}. -/
inductive AgentState where
  | idle
  | running
  | finished
  | error
  deriving DecidableEq, Repr

/-- Rendering of an `AgentState` inside the invalid-start message
(modelled from the spec; the enum's textual form lives in the absent
`app/schema.py`). -/
def AgentState.describe : AgentState → String
  | AgentState.idle => "AgentState.IDLE"
  | AgentState.running => "AgentState.RUNNING"
  | AgentState.finished => "AgentState.FINISHED"
  | AgentState.error => "AgentState.ERROR"

/-- The `BaseAgent` fields the run loop owns (`state`, `current_step`,
`max_steps`) over an abstract remainder `σ` (memory, prompts, tool state —
everything `step`, `is_stuck` and `handle_stuck_state` touch). -/
structure LoopAgent (σ : Type) where
  state : AgentState
  currentStep : Nat
  maxSteps : Nat
  inner : σ

/-- Outcome of one `await self.step()` call: a result string with the
updated agent state and inner state, or an escaping exception (the inner
state as mutated up to the raise). -/
inductive StepOut (σ : Type) where
  | ok (msg : String) (st : AgentState) (s : σ)
  | fault (e : String) (s : σ)

/-- The subclass-provided operations the loop body calls: `step`,
`is_stuck` and `handle_stuck_state` (the latter two acting on the
abstract inner state). -/
structure LoopOps (σ : Type) where
  stepFn : σ → AgentState → StepOut σ
  stuckFn : σ → Bool
  handleStuckFn : σ → σ

/-- The `while` body of `BaseAgent.run`: while `current_step < max_steps`
and state is not FINISHED, increment the counter, run `step`, apply stuck
handling, and append the labelled step line. Fuel makes the recursion
structural; `runAgent` passes `max_steps - current_step`, which is exact:
fuel exhaustion coincides with the guard turning false. -/
def runLoop (ops : LoopOps σ) : Nat → LoopAgent σ → List String →
    (List String × LoopAgent σ) ⊕ (String × LoopAgent σ)
  | 0, a, acc => Sum.inl (acc, a)
  | fuel + 1, a, acc =>
    if a.currentStep < a.maxSteps ∧ a.state ≠ AgentState.finished then
      let a1 : LoopAgent σ := { a with currentStep := a.currentStep + 1 }
      match ops.stepFn a1.inner a1.state with
      | StepOut.fault e s => Sum.inr (e, { a1 with inner := s })
      | StepOut.ok msg st s =>
        let s2 := if ops.stuckFn s then ops.handleStuckFn s else s
        runLoop ops fuel { a1 with state := st, inner := s2 }
          (acc ++ ["步骤 " ++ toString a1.currentStep ++ ": " ++ msg])
    else Sum.inl (acc, a)

/-- The max-steps termination notice appended by `run`. -/
def maxStepsNotice (n : Nat) : String := "终止: 达到最大步骤数 (" ++ toString n ++ ")"

/-- How a call to `BaseAgent.run` ends: a normal summary, the invalid
start-state `RuntimeError` (raised before any mutation), or a fault from
the loop body. In the fault case, `stateDuringUnwind` is the state the
`state_context` except-handler assigns before re-raising, and the carried
agent is the object after the finally-clause restoration. -/
inductive RunResult (σ : Type) where
  | done (summary : String) (a : LoopAgent σ)
  | invalidStart (msg : String) (a : LoopAgent σ)
  | fault (e : String) (stateDuringUnwind : AgentState) (a : LoopAgent σ)

/-- `BaseAgent.run` over `state_context`: reject a non-IDLE start; append
the optional request as a user message (`addUser`); save the previous
state and set RUNNING; run the loop; on hitting the step budget, reset
`current_step` to 0, force IDLE and append the termination notice; in all
cases the finally clause restores the previous state, and a loop fault
passes through ERROR before that restoration. -/
def runAgent (ops : LoopOps σ) (addUser : String → σ → σ)
    (request : Option String) (a : LoopAgent σ) : RunResult σ :=
  if a.state ≠ AgentState.idle then
    RunResult.invalidStart ("无法从状态运行代理: " ++ a.state.describe) a
  else
    let a0 :=
      if optStrTruthy request then { a with inner := addUser (request.getD "") a.inner }
      else a
    let previous := a0.state
    let aR : LoopAgent σ := { a0 with state := AgentState.running }
    match runLoop ops (aR.maxSteps - aR.currentStep) aR [] with
    | Sum.inr (e, aF) =>
      RunResult.fault e AgentState.error { aF with state := previous }
    | Sum.inl (results, aL) =>
      let post :=
        if aL.maxSteps ≤ aL.currentStep then
          (results ++ [maxStepsNotice aL.maxSteps],
           { aL with currentStep := 0, state := AgentState.idle })
        else (results, aL)
      RunResult.done
        (if post.1.isEmpty then "未执行任何步骤" else String.intercalate "\n" post.1)
        { post.2 with state := previous }

/-- The parallel-arrays invariant of a single plan (spec §3):
`len(steps) == len(step_statuses) == len(step_notes)`. -/
def PlanInv (p : Plan) : Prop :=
  p.stepStatuses.length = p.steps.length ∧ p.stepNotes.length = p.steps.length

/-- The parallel-arrays invariant over every stored plan. -/
def StateInv (st : PlanningState) : Prop := ∀ pr ∈ st.plans, PlanInv pr.2

/-- Scenario D, step 1: `create` a plan with id `plan0`, title `t` and
three steps. -/
def planDCreated : PlanningState :=
  (createPlan { plans := [], currentPlanId := none } (some "plan0") (some "t")
    (some ["a", "b", "c"])).1

/-- Scenario D, step 2: `mark_step` index 1 to `completed`. -/
def planDMarked : PlanningState :=
  (markStep planDCreated (some "plan0") (some 1) (some "completed") none).1

/-- The plan stored by Scenario D's `create`. -/
def planD0 : Plan :=
  { planId := "plan0", title := "t", steps := ["a", "b", "c"],
    stepStatuses := ["not_started", "not_started", "not_started"],
    stepNotes := ["", "", ""] }

/-- Scenario D's rendered plan text (`get` after the mark). -/
def planDRender : String :=
  match assocGet planDMarked.plans "plan0" with
  | some p => formatPlan p
  | none => ""

/-- A concrete tool call used in the think-phase scenarios. -/
def tcA : ToolCall := { id := "call_0", function := { name := "bash", arguments := none } }

/-- A message formatter that always faults, standing for a
`Message.from_tool_calls` raising inside think's `try` block. -/
def mkAssistantMsgBoom : Option String → List ToolCall → Except String Message :=
  fun _ _ => Except.error "ValidationError"

/-- A concrete tool-calling agent in AUTO mode with empty memory and no
standing prompt. -/
def c2Agent : TCAgent :=
  { memory := [], nextStepPrompt := none, toolChoices := ToolChoice.auto, toolCalls := [] }

/-- A concrete model response scheduling one tool call. -/
def c2Resp : LLMResponse := { content := some "hi", toolCalls := [tcA] }

/-- A registered tool whose execution raises a non-`ToolError` exception. -/
def faultyTool : Tool Unit :=
  { name := "boom", description := "d", parameters := none,
    run := fun _ => ExecOutcome.otherFault "ZeroDivisionError: division by zero" }

/-- A registered tool whose execution raises a `ToolError`. -/
def toolErrTool : Tool Unit :=
  { name := "te", description := "d", parameters := none,
    run := fun _ => ExecOutcome.toolError "bad parameter" }

/-- A registry holding the two concrete tools above. -/
def c3Collection : ToolCollection Unit := initCollection [faultyTool, toolErrTool]

/-- First registration under the name `dup`. -/
def dupToolV1 : Tool Unit :=
  { name := "dup", description := "v1", parameters := none,
    run := fun _ => ExecOutcome.ok {} }

/-- Second, different registration under the same name `dup`. -/
def dupToolV2 : Tool Unit :=
  { name := "dup", description := "v2", parameters := some "schema2",
    run := fun _ => ExecOutcome.ok {} }

/-- Loop operations whose step always reports a result and keeps the
agent RUNNING (a model that never calls a special tool). -/
def opsKeepsRunning : LoopOps Unit :=
  { stepFn := fun _ _ => StepOut.ok "思考完成 - 无需操作" AgentState.running (),
    stuckFn := fun _ => false, handleStuckFn := fun s => s }

/-- Loop operations whose first step finishes the run (a model that calls
the terminate tool immediately). -/
def opsFinishes : LoopOps Unit :=
  { stepFn := fun _ _ => StepOut.ok "done" AgentState.finished (),
    stuckFn := fun _ => false, handleStuckFn := fun s => s }

/-- An idle agent with a budget of one step. -/
def idleAgent1 : LoopAgent Unit :=
  { state := AgentState.idle, currentStep := 0, maxSteps := 1, inner := () }

/-- An idle agent with a budget of two steps. -/
def idleAgent2 : LoopAgent Unit :=
  { state := AgentState.idle, currentStep := 0, maxSteps := 2, inner := () }

/-- An agent already in the RUNNING state. -/
def runningAgent : LoopAgent Unit :=
  { state := AgentState.running, currentStep := 0, maxSteps := 1, inner := () }

/-- The trivial user-message appender over a unit inner state. -/
def noUser : String → Unit → Unit := fun _ s => s

/-- The loop-exit agent of `opsKeepsRunning` on `idleAgent1`. -/
def loopOutKR : LoopAgent Unit :=
  { state := AgentState.running, currentStep := 1, maxSteps := 1, inner := () }

/-- The loop-exit agent of `opsFinishes` on `idleAgent2`. -/
def loopOutFin : LoopAgent Unit :=
  { state := AgentState.finished, currentStep := 1, maxSteps := 2, inner := () }

/-- C1: after Scenario D (create a plan with 3 steps, mark step index 1
completed), the stored plan's textual rendering is the Chinese-format
text below: it contains no literal `Steps:` line and none of the markers
`[ ]` / `[✓]` anywhere; the step lines read `0. □ a`, `1. ✓ b`, `2. □ c`;
and consequently the planning agent's own step-index recovery
(`_get_current_step_index`, which searches for a `Steps:` line and `[ ]` /
`[→]` markers) parses this rendering to `none`. This contradicts both the
spec's rendering contract and the parser the repository itself ships. -/
theorem formatPlan_scenarioD_renders_chinese_markers :
    planDRender =
      "计划：t (ID：plan0)\n================\n\n进度：1/3 (33.3%)\n状态：完成1个，进行中0个，阻塞0个，未开始2个\n\n步骤详情：\n0. □ a\n1. ✓ b\n2. □ c\n"
    ∧ (splitLines planDRender).all (fun l => !(strContains l "Steps:")) = true
    ∧ (splitLines planDRender).all
        (fun l => !(strContains l "[ ]") && !(strContains l "[✓]")) = true
    ∧ (splitLines planDRender).drop 7 = ["0. □ a", "1. ✓ b", "2. □ c"]
    ∧ parseCurrentStepIndex planDRender = none :=
  ⟨rfl, rfl, rfl, by decide, rfl⟩

/-- C2 counterexample: a fault raised while obtaining the model response
(the `ask_tool` call, which sits outside think's `try` block) propagates
out of `think`, and no assistant-role error message is recorded — the
agent is returned unchanged. -/
theorem think_ask_fault_propagates :
    think c2Agent (Except.error "RuntimeError: connection reset") mkAssistantMsgOk =
      (c2Agent, Except.error "RuntimeError: connection reset") := rfl

/-- C2 (amended): a fault raised while processing the model response
inside the dispatch block (building the assistant message from the tool
calls) is caught locally — an assistant-role error message is appended
and think returns false — but a fault raised while obtaining the model
response itself propagates to the caller. -/
theorem think_fault_handling (ag : TCAgent)
    (mk : Option String → List ToolCall → Except String Message) :
    (∀ e, (think ag (Except.error e) mk).2 = Except.error e)
    ∧ (∀ (response : LLMResponse) (e : String),
        ag.toolChoices ≠ ToolChoice.choiceNone →
        response.toolCalls.isEmpty = false →
        mk response.content response.toolCalls = Except.error e →
        (think ag (Except.ok response) mk).2 = Except.ok false
        ∧ (think ag (Except.ok response) mk).1.memory.getLast? =
            some (Message.assistantMessage
              (some ("Error encountered while processing: " ++ e)))) := by
  constructor
  · intro e
    unfold think
    by_cases h : optStrTruthy ag.nextStepPrompt <;> simp [h]
  · intro response e hn hempty hmk
    unfold think
    by_cases h : optStrTruthy ag.nextStepPrompt <;>
      simp [h, hn, hempty, hmk, List.getLast?_concat]

/-- C2 amended witness: a concrete AUTO-mode agent whose response carries
one tool call and whose message formatter faults. -/
theorem think_fault_handling_witness :
    (think c2Agent (Except.ok c2Resp) mkAssistantMsgBoom).2 = Except.ok false
    ∧ (think c2Agent (Except.ok c2Resp) mkAssistantMsgBoom).1.memory.getLast? =
        some (Message.assistantMessage
          (some ("Error encountered while processing: " ++ "ValidationError"))) :=
  (think_fault_handling c2Agent mkAssistantMsgBoom).2 c2Resp "ValidationError"
    (by decide) rfl rfl

/-- C3 counterexample: a registered tool whose execution raises an
exception that is not a `ToolError` makes the registry's `execute`
propagate the fault instead of converting it to a failure `ToolResult`
(the source catches `ToolError` only). -/
theorem execute_propagates_non_toolerror :
    c3Collection.execute "boom" () =
      Except.error "ZeroDivisionError: division by zero" := rfl

/-- C3 (amended): `execute` on an unregistered name returns (never
raises) a failure `ToolResult` whose error mentions the unknown name, and
a `ToolError` raised by the registered tool's execution is caught and
converted to a failure `ToolResult`; any other fault raised by the tool
propagates uncaught. -/
theorem execute_error_handling {α : Type} (c : ToolCollection α) (name : String) (input : α) :
    (assocGet c.toolMap name = none →
      c.execute name input = Except.ok (ToolFailure ("工具不存在：" ++ name)))
    ∧ (∀ t m, assocGet c.toolMap name = some t → t.run input = ExecOutcome.toolError m →
        c.execute name input = Except.ok (ToolFailure m))
    ∧ (∀ t m, assocGet c.toolMap name = some t → t.run input = ExecOutcome.otherFault m →
        c.execute name input = Except.error m) := by
  refine ⟨?_, ?_, ?_⟩
  · intro h
    simp [ToolCollection.execute, h]
  · intro t m ht hr
    simp [ToolCollection.execute, ht, hr]
  · intro t m ht hr
    simp [ToolCollection.execute, ht, hr]

/-- C3 amended witness: the unknown-name and `ToolError` paths evaluated
on the concrete registry. -/
theorem execute_error_handling_witness :
    c3Collection.execute "nosuch" () =
      Except.ok (ToolFailure ("工具不存在：" ++ "nosuch"))
    ∧ c3Collection.execute "te" () = Except.ok (ToolFailure "bad parameter") :=
  ⟨(execute_error_handling c3Collection "nosuch" ()).1 rfl,
   (execute_error_handling c3Collection "te" ()).2.1 toolErrTool "bad parameter" rfl rfl⟩

/-- C6: a `mark_step` whose `step_index` lies outside `[0, len(steps))`
of the targeted plan is rejected with the out-of-range `ToolError` and the
whole planning state — hence every plan's steps, statuses and notes — is
returned unmodified. -/
theorem markStep_out_of_range_rejected (st : PlanningState) (planId : Option String)
    (i : Int) (stepStatus stepNotes : Option String) (p : Plan)
    (hpid : optStrTruthy (if optStrTruthy planId then planId else st.currentPlanId) = true)
    (hp : assocGet st.plans
      ((if optStrTruthy planId then planId else st.currentPlanId).getD "") = some p)
    (hi : i < 0 ∨ (p.steps.length : Int) ≤ i) :
    markStep st planId (some i) stepStatus stepNotes =
      (st, Except.error ("步骤索引" ++ toString i ++ "超出范围")) := by
  simp [markStep, hpid, hp, hi]

/-- C6 witness: marking step 5 of the three-step Scenario D plan. -/
theorem markStep_out_of_range_witness :
    markStep planDCreated (some "plan0") (some 5) (some "completed") none =
      (planDCreated, Except.error ("步骤索引" ++ toString (5 : Int) ++ "超出范围")) :=
  markStep_out_of_range_rejected planDCreated (some "plan0") 5 (some "completed") none
    planD0 (by decide) (by decide) (by decide)

/-- Lengths of the carried-over status and note arrays equal the new step
count. -/
theorem carryOver_lengths (a b c : List String) :
    ∀ (i : Nat) (ss : List String),
      (carryOver a b c i ss).1.length = ss.length
      ∧ (carryOver a b c i ss).2.length = ss.length := by
  intro i ss
  induction ss generalizing i with
  | nil => simp [carryOver]
  | cons n rest ih =>
    obtain ⟨h1, h2⟩ := ih (i + 1)
    simp only [carryOver]
    split <;> simp [h1, h2]

/-- Membership after an associative store: the new pair or an old one. -/
theorem mem_assocSet {β : Type} (k : String) (v : β) :
    ∀ (l : List (String × β)) (pr : String × β),
      pr ∈ assocSet l k v → pr = (k, v) ∨ pr ∈ l := by
  intro l
  induction l with
  | nil =>
    intro pr h
    simp [assocSet] at h
    left; exact h
  | cons hd tl ih =>
    intro pr h
    simp only [assocSet] at h
    split at h
    · rcases List.mem_cons.mp h with h1 | h1
      · left; exact h1
      · right; exact List.mem_cons_of_mem _ h1
    · rcases List.mem_cons.mp h with h1 | h1
      · right; rw [h1]; exact List.mem_cons_self _ _
      · rcases ih pr h1 with h2 | h2
        · left; exact h2
        · right; exact List.mem_cons_of_mem _ h2

/-- Storing a plan with valid parallel arrays preserves the state
invariant. -/
theorem inv_assocSet (l : List (String × Plan)) (k : String) (p : Plan)
    (hl : ∀ pr ∈ l, PlanInv pr.2) (hp : PlanInv p) :
    ∀ pr ∈ assocSet l k p, PlanInv pr.2 := by
  intro pr hm
  rcases mem_assocSet k p l pr hm with h | h
  · rw [h]; exact hp
  · exact hl pr h

/-- A successful association lookup exhibits a member. -/
theorem assocGet_mem {β : Type} (k : String) :
    ∀ (l : List (String × β)) (v : β), assocGet l k = some v → (k, v) ∈ l := by
  intro l
  induction l with
  | nil => intro v h; simp [assocGet] at h
  | cons hd tl ih =>
    intro v h
    simp only [assocGet] at h
    split at h
    · rename_i heq
      injection h with h2
      have : hd = (k, v) := by
        cases hd with
        | mk a b => simp only [Prod.mk.injEq]; exact ⟨heq, h2⟩
      rw [← this]; exact List.mem_cons_self _ _
    · exact List.mem_cons_of_mem _ (ih v h)

/-- C7: any `create` and any `update` — successful or rejected — preserve
the parallel-arrays invariant `len(steps) == len(step_statuses) ==
len(step_notes)` on every stored plan; in particular it holds after every
successful create or update. -/
theorem create_update_preserve_parallel_arrays (st : PlanningState)
    (hinv : StateInv st) (planId title : Option String) (steps : Option (List String)) :
    StateInv (createPlan st planId title steps).1
    ∧ StateInv (updatePlan st planId title steps).1 := by
  constructor
  · unfold createPlan
    dsimp only
    split
    · exact hinv
    split
    · exact hinv
    split
    · exact hinv
    split
    · exact hinv
    split
    · exact hinv
    intro pr hm
    refine inv_assocSet st.plans _ _ hinv ?_ pr hm
    exact ⟨by simp, by simp⟩
  · unfold updatePlan
    dsimp only
    split
    · exact hinv
    split
    · exact hinv
    rename_i p hp
    have hpmem : PlanInv p := hinv _ (assocGet_mem _ st.plans p hp)
    have hp1 : PlanInv (if optStrTruthy title = true then
        { p with title := title.getD "" } else p) := by
      split <;> simpa [PlanInv] using hpmem
    intro pr hm
    refine inv_assocSet st.plans _ _ hinv ?_ pr hm
    split
    · exact hp1
    split
    · exact hp1
    exact ⟨(carryOver_lengths _ _ _ 0 _).1, (carryOver_lengths _ _ _ 0 _).2⟩

/-- C7 witness: the invariant after a concrete create on the empty
state. -/
theorem create_update_preserve_witness :
    StateInv (createPlan { plans := [], currentPlanId := none }
      (some "p") (some "t") (some ["a"])).1 :=
  (create_update_preserve_parallel_arrays { plans := [], currentPlanId := none }
    (fun pr h => absurd h (List.not_mem_nil pr)) (some "p") (some "t") (some ["a"])).1

/-- Looking up the key just stored yields the stored value. -/
theorem assocGet_assocSet_self {β : Type} (k : String) (v : β) :
    ∀ l, assocGet (assocSet l k v) k = some v := by
  intro l
  induction l with
  | nil => simp [assocSet, assocGet]
  | cons hd tl ih =>
    simp only [assocSet]
    split
    · simp [assocGet]
    · rename_i h
      simp only [assocGet]
      rw [if_neg h]
      exact ih

/-- Storing twice under the same key equals storing the second value. -/
theorem assocSet_assocSet_same {β : Type} (k : String) (v w : β) :
    ∀ l, assocSet (assocSet l k v) k w = assocSet l k w := by
  intro l
  induction l with
  | nil => simp [assocSet]
  | cons hd tl ih =>
    simp only [assocSet]
    split
    · rename_i h
      simp [assocSet, h]
    · rename_i h
      simp [assocSet, h, ih]

/-- C9 counterexample: registering the same tool twice is NOT equivalent
to registering it once — the advertised schema list (`to_params`) then
contains the tool's entry twice, because `add_tool` appends to the
`tools` tuple unconditionally. -/
theorem addTool_twice_duplicates_params :
    (((initCollection ([] : List (Tool Unit))).addTool dupToolV1).addTool dupToolV1).toParams ≠
      ((initCollection ([] : List (Tool Unit))).addTool dupToolV1).toParams := by
  decide

/-- C9 (amended): registration is idempotent by name only for the lookup
map: `add_tool` overwrites the `tool_map` entry in place (so lookup and a
repeated registration of the same tool leave the map as after a single
registration, and a later registration wins over an earlier one of the
same name), but the `tools` tuple — and with it the advertised
`to_params` schema list — appends one entry per registration, duplicates
included. -/
theorem addTool_overwrites_map_appends_tools {α : Type} (c : ToolCollection α)
    (t tEarlier : Tool α) :
    ((c.addTool t).toolMap = assocSet c.toolMap t.name t)
    ∧ (assocGet (c.addTool t).toolMap t.name = some t)
    ∧ (tEarlier.name = t.name →
        ((c.addTool tEarlier).addTool t).toolMap = assocSet c.toolMap t.name t)
    ∧ (((c.addTool t).addTool t).toolMap = (c.addTool t).toolMap)
    ∧ ((c.addTool t).tools = c.tools ++ [t])
    ∧ (((c.addTool t).addTool t).toParams = c.toParams ++ [t.toParam, t.toParam]) := by
  refine ⟨rfl, ?_, ?_, ?_, rfl, ?_⟩
  · exact assocGet_assocSet_self t.name t c.toolMap
  · intro h
    simp [ToolCollection.addTool, h, assocSet_assocSet_same]
  · simp [ToolCollection.addTool, assocSet_assocSet_same]
  · simp [ToolCollection.addTool, ToolCollection.toParams]

/-- C9 amended witness: a later registration under the name `dup` wins
over an earlier different one in the lookup map. -/
theorem addTool_overwrites_witness :
    (((initCollection ([] : List (Tool Unit))).addTool dupToolV2).addTool dupToolV1).toolMap =
      assocSet (initCollection ([] : List (Tool Unit))).toolMap dupToolV1.name dupToolV1 :=
  (addTool_overwrites_map_appends_tools (initCollection []) dupToolV1 dupToolV2).2.2.1 rfl

/-- C8: `is_stuck` is true exactly when there are at least two messages,
the last message's content is truthy, and the count of messages before
the last with role assistant and content equal to the last content
reaches the duplicate threshold; in particular it is false with fewer
than two messages or an empty/null last content. -/
theorem isStuck_spec (msgs : List Message) (thr : Nat) :
    isStuck msgs thr = true ↔
      2 ≤ msgs.length ∧ ∃ last, msgs.getLast? = some last ∧
        optStrTruthy last.content = true ∧
        thr ≤ msgs.dropLast.countP
          (fun m => m.role == Role.assistant && m.content == last.content) := by
  unfold isStuck
  by_cases hlen : msgs.length < 2
  · rw [if_pos hlen]
    simp only [Bool.false_eq_true, false_iff]
    rintro ⟨h2, -⟩
    omega
  · rw [if_neg hlen]
    cases hl : msgs.getLast? with
    | none =>
      rw [List.getLast?_eq_none_iff] at hl
      subst hl
      simp at hlen
    | some last =>
      simp only [hl]
      by_cases hc : optStrTruthy last.content = true
      · simp only [hc, Bool.not_true, Bool.false_eq_true, if_false, decide_eq_true_eq]
        constructor
        · intro h
          exact ⟨by omega, last, rfl, hc, h⟩
        · rintro ⟨-, last', hl', -, h'⟩
          injection hl' with he
          subst he
          exact h'
      · have hc' : optStrTruthy last.content = false := by
          cases hv : optStrTruthy last.content
          · rfl
          · exact absurd hv hc
        simp only [hc', Bool.not_false, if_true, Bool.false_eq_true, false_iff]
        rintro ⟨-, last', hl', hcl', -⟩
        injection hl' with he
        subst he
        exact hc hcl'

/-- Behaviour of the loop body on a normal exit: `max_steps` is never
touched; the step counter only grows, by exactly one per appended trace
line, never beyond the fuel; an exit strictly below the fuel bound is a
guard exit (step budget exhausted or state FINISHED); and an exit after
zero iterations returns the inputs unchanged. -/
theorem runLoop_inl_spec {σ : Type} (ops : LoopOps σ) :
    ∀ (fuel : Nat) (a : LoopAgent σ) (acc res : List String) (aL : LoopAgent σ),
      runLoop ops fuel a acc = Sum.inl (res, aL) →
        aL.maxSteps = a.maxSteps
        ∧ a.currentStep ≤ aL.currentStep
        ∧ res.length + a.currentStep = acc.length + aL.currentStep
        ∧ aL.currentStep ≤ a.currentStep + fuel
        ∧ (aL.currentStep < a.currentStep + fuel →
            aL.maxSteps ≤ aL.currentStep ∨ aL.state = AgentState.finished)
        ∧ (aL.currentStep = a.currentStep → aL = a ∧ res = acc) := by
  intro fuel
  induction fuel with
  | zero =>
    intro a acc res aL h
    simp only [runLoop, Sum.inl.injEq, Prod.mk.injEq] at h
    obtain ⟨rfl, rfl⟩ := h
    exact ⟨rfl, Nat.le_refl _, rfl, by omega, by omega, fun _ => ⟨rfl, rfl⟩⟩
  | succ fuel ih =>
    intro a acc res aL h
    rw [runLoop] at h
    split at h
    · rename_i hguard
      dsimp only at h
      cases hstep : ops.stepFn a.inner a.state with
      | fault e s =>
        rw [hstep] at h
        simp at h
      | ok msg st s =>
        rw [hstep] at h
        obtain ⟨e1, e2, e3, e4, e5, e6⟩ := ih _ _ _ _ h
        dsimp only at e1 e2 e3 e4 e5 e6
        simp only [List.length_append, List.length_cons, List.length_nil] at e3
        refine ⟨e1, by omega, by omega, by omega, ?_, by omega⟩
        intro hlt
        exact e5 (by omega)
    · rename_i hguard
      simp only [Sum.inl.injEq, Prod.mk.injEq] at h
      obtain ⟨rfl, rfl⟩ := h
      refine ⟨rfl, Nat.le_refl _, rfl, by omega, ?_, fun _ => ⟨rfl, rfl⟩⟩
      intro _
      rcases not_and_or.mp hguard with h1 | h1
      · exact Or.inl (Nat.le_of_not_lt h1)
      · exact Or.inr (not_not.mp h1)

/-- Behaviour of the loop body on a faulting exit: `max_steps` is never
touched, and the step counter grew by at least one but stayed within the
budget (the faulting iteration's guard held). -/
theorem runLoop_inr_spec {σ : Type} (ops : LoopOps σ) :
    ∀ (fuel : Nat) (a : LoopAgent σ) (acc : List String) (e : String) (aF : LoopAgent σ),
      runLoop ops fuel a acc = Sum.inr (e, aF) →
        aF.maxSteps = a.maxSteps
        ∧ a.currentStep < aF.currentStep
        ∧ aF.currentStep ≤ a.currentStep + fuel
        ∧ aF.currentStep ≤ aF.maxSteps := by
  intro fuel
  induction fuel with
  | zero =>
    intro a acc e aF h
    simp [runLoop] at h
  | succ fuel ih =>
    intro a acc e aF h
    rw [runLoop] at h
    split at h
    · rename_i hguard
      dsimp only at h
      cases hstep : ops.stepFn a.inner a.state with
      | fault e' s =>
        rw [hstep] at h
        simp only [Sum.inr.injEq, Prod.mk.injEq] at h
        obtain ⟨rfl, rfl⟩ := h
        dsimp only
        exact ⟨rfl, by omega, by omega, by omega⟩
      | ok msg st s =>
        rw [hstep] at h
        obtain ⟨e1, e2, e3, e4⟩ := ih _ _ _ _ h
        dsimp only at e1 e2 e3 e4
        exact ⟨e1, by omega, by omega, by omega⟩
    · simp at h

/-- C4 counterexample: calling `run` on an agent already in RUNNING
raises the invalid-start fault and leaves the agent untouched — so after
this raise the agent's state IS still RUNNING, contradicting the claim
that the state is never RUNNING after `run` returns or raises. -/
theorem run_rejected_while_running_stays_running :
    runAgent opsKeepsRunning noUser none runningAgent =
      RunResult.invalidStart ("无法从状态运行代理: " ++ AgentState.running.describe)
        runningAgent
    ∧ runningAgent.state = AgentState.running := ⟨rfl, rfl⟩

/-- C4 (amended): a non-IDLE start makes `run` fail with the
invalid-start fault before entering the loop, leaving the agent exactly
as it was (so a RUNNING start stays RUNNING); for every accepted run —
necessarily started from IDLE — the state after `run` returns or raises
is the pre-run IDLE, never RUNNING, and on a fault the state passes
through ERROR during propagation before the scope restores it. -/
theorem run_state_contract {σ : Type} (ops : LoopOps σ) (addUser : String → σ → σ)
    (request : Option String) (a : LoopAgent σ) :
    (a.state ≠ AgentState.idle →
      runAgent ops addUser request a =
        RunResult.invalidStart ("无法从状态运行代理: " ++ a.state.describe) a)
    ∧ (∀ s aF, runAgent ops addUser request a = RunResult.done s aF →
        a.state = AgentState.idle ∧ aF.state = AgentState.idle)
    ∧ (∀ e es aF, runAgent ops addUser request a = RunResult.fault e es aF →
        a.state = AgentState.idle ∧ es = AgentState.error
        ∧ aF.state = AgentState.idle) := by
  have hstate : ∀ (z : σ),
      (if optStrTruthy request = true then { a with inner := z } else a).state
        = a.state := by
    intro z
    split <;> rfl
  by_cases h : a.state = AgentState.idle
  · refine ⟨fun hne => absurd h hne, ?_, ?_⟩
    · intro s aF hr
      unfold runAgent at hr
      rw [if_neg (not_not_intro h)] at hr
      dsimp only at hr
      split at hr
      · simp at hr
      · injection hr with h1 h2
        rw [← h2]
        refine ⟨h, ?_⟩
        dsimp only
        rw [hstate, h]
    · intro e es aF hr
      unfold runAgent at hr
      rw [if_neg (not_not_intro h)] at hr
      dsimp only at hr
      split at hr
      · injection hr with h1 h2 h3
        rw [← h2, ← h3]
        refine ⟨h, rfl, ?_⟩
        dsimp only
        rw [hstate, h]
      · simp at hr
  · refine ⟨fun _ => ?_, ?_, ?_⟩
    · unfold runAgent
      rw [if_pos h]
    · intro s aF hr
      unfold runAgent at hr
      rw [if_pos h] at hr
      exact absurd hr (by simp)
    · intro e es aF hr
      unfold runAgent at hr
      rw [if_pos h] at hr
      exact absurd hr (by simp)

/-- C4 amended witness: a rejected concrete run reports the invalid
start, and an accepted concrete run ends IDLE. -/
theorem run_state_contract_witness :
    (runAgent opsKeepsRunning noUser none runningAgent =
      RunResult.invalidStart
        ("无法从状态运行代理: " ++ runningAgent.state.describe) runningAgent)
    ∧ (idleAgent1.state = AgentState.idle
        ∧ (LoopAgent.mk AgentState.idle 0 1 ()).state = AgentState.idle) :=
  ⟨(run_state_contract opsKeepsRunning noUser none runningAgent).1 (by decide),
   (run_state_contract opsKeepsRunning noUser none idleAgent1).2.1
     ("步骤 1: 思考完成 - 无需操作\n" ++ maxStepsNotice 1)
     (LoopAgent.mk AgentState.idle 0 1 ()) rfl⟩

/-- C5: starting an accepted run from IDLE with `current_step = 0` and
`max_steps = N ≥ 1`, the loop performs at most N iterations (one trace
line per step invocation, and also at most N step invocations when a step
faults); a normal loop exit below N means FINISHED was reached; and when
the loop exits with the budget exhausted, `run` returns normally with
`current_step` reset to 0, the state back at IDLE, and the trace ending in
the max-steps termination notice. -/
theorem run_step_budget {σ : Type} (ops : LoopOps σ) (addUser : String → σ → σ)
    (a : LoopAgent σ) (hN : 1 ≤ a.maxSteps) (hidle : a.state = AgentState.idle)
    (hc0 : a.currentStep = 0) :
    (∀ (res : List String) (aL : LoopAgent σ),
      runLoop ops (a.maxSteps - a.currentStep) { a with state := AgentState.running } []
          = Sum.inl (res, aL) →
        res.length ≤ a.maxSteps
        ∧ (aL.currentStep < a.maxSteps → aL.state = AgentState.finished)
        ∧ (a.maxSteps ≤ aL.currentStep →
            runAgent ops addUser none a =
              RunResult.done
                (String.intercalate "\n" (res ++ [maxStepsNotice a.maxSteps]))
                { aL with currentStep := 0, state := AgentState.idle }))
    ∧ (∀ (e : String) (aF : LoopAgent σ),
        runLoop ops (a.maxSteps - a.currentStep) { a with state := AgentState.running } []
          = Sum.inr (e, aF) →
        aF.currentStep ≤ a.maxSteps) := by
  constructor
  · intro res aL hrun
    obtain ⟨e1, e2, e3, e4, e5, e6⟩ := runLoop_inl_spec ops _ _ _ _ _ hrun
    dsimp only at e1 e2 e3 e4 e5 e6
    simp only [List.length_nil] at e3
    refine ⟨by omega, ?_, ?_⟩
    · intro hlt
      rcases e5 (by omega) with h1 | h1
      · omega
      · exact h1
    · intro hge
      unfold runAgent
      rw [if_neg (not_not_intro hidle),
        if_neg (show ¬ (optStrTruthy (none : Option String) = true) by decide)]
      dsimp only
      rw [hrun]
      dsimp only
      rw [if_pos (show aL.maxSteps ≤ aL.currentStep by omega)]
      rw [if_neg (by simp)]
      rw [e1, hidle]
  · intro e aF hrun
    obtain ⟨e1, e2, e3, e4⟩ := runLoop_inr_spec ops _ _ _ _ _ hrun
    dsimp only at e1 e2 e3 e4
    omega

/-- C5 witness: a model that never finishes, with a budget of one step —
the run performs exactly one iteration and ends in the max-steps
notice with the counter reset and the state IDLE. -/
theorem run_step_budget_witness :
    ["步骤 1: 思考完成 - 无需操作"].length ≤ idleAgent1.maxSteps
    ∧ runAgent opsKeepsRunning noUser none idleAgent1 =
        RunResult.done
          (String.intercalate "\n"
            (["步骤 1: 思考完成 - 无需操作"] ++ [maxStepsNotice idleAgent1.maxSteps]))
          { loopOutKR with currentStep := 0, state := AgentState.idle } :=
  have h := (run_step_budget opsKeepsRunning noUser idleAgent1
    (by decide) rfl rfl).1 ["步骤 1: 思考完成 - 无需操作"] loopOutKR rfl
  ⟨h.1, h.2.2 (by decide)⟩

/-- C10: when an accepted run's loop exits with FINISHED strictly before
the step budget, the loop in fact reached FINISHED after at least one
iteration; `run` returns normally WITHOUT resetting `current_step` (the
final agent keeps its positive counter value, only its state is restored
to IDLE, and no termination notice is appended); and a subsequent run on
that agent is accepted (never the invalid-start fault) and performs at
most `max_steps - current_step` further iterations. -/
theorem run_finished_retains_currentStep {σ : Type} (ops : LoopOps σ)
    (addUser : String → σ → σ) (a : LoopAgent σ)
    (hidle : a.state = AgentState.idle) (hc0 : a.currentStep = 0)
    (res : List String) (aL : LoopAgent σ)
    (hrun : runLoop ops (a.maxSteps - a.currentStep) { a with state := AgentState.running } []
      = Sum.inl (res, aL))
    (hlt : aL.currentStep < a.maxSteps) :
    aL.state = AgentState.finished
    ∧ 0 < aL.currentStep
    ∧ runAgent ops addUser none a =
        RunResult.done (String.intercalate "\n" res) { aL with state := AgentState.idle }
    ∧ (∀ (s2 : σ) (res2 : List String) (aL2 : LoopAgent σ),
        runLoop ops (a.maxSteps - aL.currentStep)
          { aL with state := AgentState.running, inner := s2 } [] = Sum.inl (res2, aL2) →
        res2.length ≤ a.maxSteps - aL.currentStep)
    ∧ (∀ (req2 : Option String) (m : String) (a2 : LoopAgent σ),
        runAgent ops addUser req2 { aL with state := AgentState.idle } ≠
          RunResult.invalidStart m a2) := by
  obtain ⟨e1, e2, e3, e4, e5, e6⟩ := runLoop_inl_spec ops _ _ _ _ _ hrun
  dsimp only at e1 e2 e3 e4 e5 e6
  simp only [List.length_nil] at e3
  have hfin : aL.state = AgentState.finished := by
    rcases e5 (by omega) with h1 | h1
    · omega
    · exact h1
  have hpos : 0 < aL.currentStep := by
    by_contra hz
    have hcs : aL.currentStep = a.currentStep := by omega
    obtain ⟨ha, -⟩ := e6 hcs
    rw [ha] at hfin
    simp at hfin
  refine ⟨hfin, hpos, ?_, ?_, ?_⟩
  · unfold runAgent
    rw [if_neg (not_not_intro hidle),
      if_neg (show ¬ (optStrTruthy (none : Option String) = true) by decide)]
    dsimp only
    rw [hrun]
    dsimp only
    rw [if_neg (show ¬ aL.maxSteps ≤ aL.currentStep by omega)]
    rw [if_neg (by
      simp only [List.isEmpty_iff]
      intro hres
      rw [hres] at e3
      simp at e3
      omega)]
    rw [hidle]
  · intro s2 res2 aL2 hrun2
    obtain ⟨f1, f2, f3, f4, f5, f6⟩ := runLoop_inl_spec ops _ _ _ _ _ hrun2
    dsimp only at f1 f2 f3 f4 f5 f6
    simp only [List.length_nil] at f3
    omega
  · intro req2 m a2 hbad
    unfold runAgent at hbad
    rw [if_neg (by simp)] at hbad
    by_cases hreq : optStrTruthy req2 = true
    · rw [if_pos hreq] at hbad
      dsimp only at hbad
      split at hbad <;> simp at hbad
    · rw [if_neg hreq] at hbad
      dsimp only at hbad
      split at hbad <;> simp at hbad

/-- C10 witness: a model that terminates on step 1 with a budget of two —
the run ends normally with `current_step` kept at 1 and state IDLE, and a
second run is bounded by the remaining budget. -/
theorem run_finished_retains_currentStep_witness :
    loopOutFin.state = AgentState.finished
    ∧ 0 < loopOutFin.currentStep
    ∧ runAgent opsFinishes noUser none idleAgent2 =
        RunResult.done (String.intercalate "\n" ["步骤 1: done"])
          { loopOutFin with state := AgentState.idle } :=
  have h := run_finished_retains_currentStep opsFinishes noUser idleAgent2
    rfl rfl ["步骤 1: done"] loopOutFin rfl (by decide)
  ⟨h.1, h.2.1, h.2.2.1⟩

end OpenManus
